import Mathlib

/-!
Verification development for the story-map editor (storywaver).

The definitions below are shallow embeddings of the TypeScript source:

* `src/App.tsx` — application state and the node/link/selection handlers
  (`handleCreateNode`, `handleUpdateNode`, `handleDeleteNode`, and the JSON
  intake handler `handleFileChange`);
* `src/components/GraphVisualizer.tsx` — topology analysis
  (incoming/outgoing counts, start-node fallback), BFS leveling, the
  position-cached d3 node initialization, the d3 zoom handlers and the
  one-shot auto-center timer;
* `src/utils/exportUtils.ts` — the text-script, image (`svgToCanvas`)
  and PDF export pipeline.

Machine reals of the browser are modelled as `ℚ`; `Math.random()` and the
force simulation's live positions enter as explicit oracle parameters.
-/

/-- A story scene, as in `types.ts` (`StoryNode`). The ephemeral layout
fields (`x`, `y`, `fx`, `fy`) live in the separate layout structures below. -/
structure StoryNode where
  id : String
  title : String
  content : String
deriving DecidableEq

/-- A directed, labeled choice, as in `types.ts` (`StoryLink`). -/
structure StoryLink where
  id : String
  source : String
  target : String
  label : String
deriving DecidableEq

/-- The aggregate import/export unit (`StoryData` in `types.ts`). -/
structure StoryData where
  nodes : List StoryNode
  links : List StoryLink
deriving DecidableEq

/-- The top-level application state owned by `App.tsx`:
`nodes`, `links`, `selectedNodeId`. -/
structure AppState where
  nodes : List StoryNode
  links : List StoryLink
  selectedNodeId : Option String
deriving DecidableEq

/-- Embedding of `handleCreateNode` in `App.tsx`: the new node's id is
`Date.now().toString()`; the clock reading is the explicit `now` argument. -/
def handleCreateNode (s : AppState) (now : Nat) (title : String) (content : String) :
    AppState :=
  let newNode : StoryNode := { id := Nat.repr now, title := title, content := content }
  { s with nodes := s.nodes ++ [newNode], selectedNodeId := some newNode.id }

/-- Embedding of `handleUpdateNode` in `App.tsx`. -/
def handleUpdateNode (s : AppState) (u : StoryNode) : AppState :=
  { s with nodes := s.nodes.map (fun n => if n.id == u.id then u else n) }

/-- Embedding of `handleDeleteNode` in `App.tsx`. -/
def handleDeleteNode (s : AppState) (nodeId : String) : AppState :=
  { nodes := s.nodes.filter (fun n => !(n.id == nodeId)),
    links := s.links.filter (fun l => !(l.source == nodeId) && !(l.target == nodeId)),
    selectedNodeId := if s.selectedNodeId = some nodeId then none else s.selectedNodeId }

/-- The node-mutating operations of `App.tsx` relevant to the id invariant:
creation (with the millisecond clock reading it observed) and update. -/
inductive AppOp where
  | create (now : Nat) (title : String) (content : String)
  | update (node : StoryNode)
deriving DecidableEq

/-- Apply one operation to the application state. -/
def applyOp (s : AppState) : AppOp → AppState
  | .create now t c => handleCreateNode s now t c
  | .update u => handleUpdateNode s u

/-- Apply a sequence of operations, left to right. -/
def applyOps (s : AppState) (ops : List AppOp) : AppState :=
  ops.foldl applyOp s

/-- The ids minted by the creation operations of a sequence, in order. -/
def createdIds (ops : List AppOp) : List String :=
  ops.filterMap (fun op =>
    match op with
    | .create now _ _ => some (Nat.repr now)
    | .update _ => none)

/-- A parsed JSON value, the result of `JSON.parse` in `handleFileChange`. -/
inductive JsonVal where
  | null
  | bool (b : Bool)
  | num (q : ℚ)
  | str (s : String)
  | arr (xs : List JsonVal)
  | obj (fields : List (String × JsonVal))

/-- JavaScript truthiness of a parsed JSON value (`data && ...`). -/
def jsTruthy : JsonVal → Bool
  | .null => false
  | .bool b => b
  | .num q => decide (q ≠ 0)
  | .str s => decide (s ≠ "")
  | .arr _ => true
  | .obj _ => true

/-- JavaScript property access `data.key` on a parsed JSON value:
defined on objects, `undefined` (here `none`) otherwise. -/
def jsGet : JsonVal → String → Option JsonVal
  | .obj fields, key => fields.lookup key
  | _, _ => none

/-- The `Array.isArray(data.key)` test of the import validator. -/
def isArrayField (data : JsonVal) (key : String) : Bool :=
  match jsGet data key with
  | some (JsonVal.arr _) => true
  | _ => false

/-- Elements of an array-valued field (only read inside the validated branch). -/
def arrElems : Option JsonVal → List JsonVal
  | some (JsonVal.arr xs) => xs
  | _ => []

/-- The story as held by React state at import time: the import handler
stores the raw decoded arrays without validating the elements. -/
structure ImportedStory where
  nodes : List JsonVal
  links : List JsonVal
  selectedNodeId : Option String

/-- Result of one import attempt: the story afterwards, and whether the
user-visible error (`alert`) was shown. -/
structure ImportResult where
  story : ImportedStory
  errorShown : Bool

/-- Embedding of the validation branch of `handleFileChange` in `App.tsx`:
`if (data && Array.isArray(data.nodes) && Array.isArray(data.links))` then
the story is replaced and the selection cleared, else an alert is shown and
nothing is mutated. -/
def handleParsedImport (s : ImportedStory) (data : JsonVal) : ImportResult :=
  if jsTruthy data && isArrayField data "nodes" && isArrayField data "links" then
    { story := { nodes := arrElems (jsGet data "nodes"),
                 links := arrElems (jsGet data "links"),
                 selectedNodeId := none },
      errorShown := false }
  else
    { story := s, errorShown := true }

/-- A story loaded before the import attempts of the C8 witness. -/
def wImportStory : ImportedStory :=
  ⟨[JsonVal.str "keep-node"], [JsonVal.str "keep-link"], some "keep-node"⟩

/-- A payload whose `nodes` field is an object, not an array. -/
def wBadPayload : JsonVal :=
  JsonVal.obj [("nodes", JsonVal.obj [("a", JsonVal.num 1)]), ("links", JsonVal.arr [])]

/-- A payload where both top-level fields are arrays. -/
def wGoodPayload : JsonVal :=
  JsonVal.obj [("nodes", JsonVal.arr [JsonVal.null]), ("links", JsonVal.arr [])]

/-- Destination name printed for a choice in `downloadTextScript`
(`target?.title || choice.target`): the target node's title when that node
exists and its title is nonempty, otherwise the raw target id. -/
def destTitle (data : StoryData) (choice : StoryLink) : String :=
  match data.nodes.find? (fun n => n.id == choice.target) with
  | some t => if t.title == "" then choice.target else t.title
  | none => choice.target

/-- One choice line of the text script. -/
def choiceLine (data : StoryData) (choice : StoryLink) : String :=
  "  - [" ++ choice.label ++ "] -> 이동: \"" ++ destTitle data choice ++ "\"\n"

/-- The accumulated choice lines (`choices.forEach(...)` after the
`선택지:` header). -/
def choicesText (data : StoryData) (choices : List StoryLink) : String :=
  choices.foldl (fun c l => c ++ choiceLine data l) "선택지:\n"

/-- The choices section of one node's block. -/
def choicesBlock (data : StoryData) (nodeId : String) : String :=
  let choices := data.links.filter (fun l => l.source == nodeId)
  if choices.length > 0 then choicesText data choices else "(분기 종료)\n"

/-- One node's block of the text script. -/
def nodeBlock (data : StoryData) (n : StoryNode) : String :=
  "장면: " ++ n.title ++ " [ID: " ++ n.id ++ "]\n"
    ++ "------------------------------------\n"
    ++ n.content ++ "\n\n"
    ++ choicesBlock data n.id
    ++ "\n====================================\n\n"

/-- The whole text script built by `downloadTextScript` in `exportUtils.ts`. -/
def textScript (data : StoryData) (filename : String) : String :=
  data.nodes.foldl (fun c n => c ++ nodeBlock data n)
    ("스토리 스크립트: " ++ filename ++ "\n" ++ "====================================\n\n")

/-- A Position Cache entry (`nodePositionsRef` in `GraphVisualizer.tsx`). -/
structure CachedPos where
  x : ℚ
  y : ℚ
  fx : Option ℚ
  fy : Option ℚ
deriving DecidableEq

/-- A d3 simulation node right after the `d3Nodes` initialization mapping. -/
structure InitNode where
  id : String
  title : String
  content : String
  level : Nat
  isStart : Bool
  isEnd : Bool
  x : ℚ
  y : ℚ
  fx : Option ℚ
  fy : Option ℚ
deriving DecidableEq

/-- Incoming-link counter of the topology analysis in `GraphVisualizer.tsx`:
all ids start at zero, then every link increments its target's counter. -/
def incomingCount (links : List StoryLink) : String → Nat :=
  links.foldl (fun f l => fun id => if id == l.target then f id + 1 else f id)
    (fun _ => 0)

/-- Outgoing-link counter of the topology analysis. -/
def outgoingCount (links : List StoryLink) : String → Nat :=
  links.foldl (fun f l => fun id => if id == l.source then f id + 1 else f id)
    (fun _ => 0)

/-- Start-node selection: nodes with no incoming links, falling back to the
first node when the graph is non-empty but fully cyclic. -/
def startNodesOf (nodes : List StoryNode) (links : List StoryLink) : List StoryNode :=
  let s := nodes.filter (fun n => incomingCount links n.id == 0)
  if s.length = 0 ∧ 0 < nodes.length then nodes.take 1 else s

/-- One child link of the BFS loop: mark the target visited and enqueue it at
`level + 1` unless it was already visited. -/
def bfsPush (level : Nat) (vq : List String × List (String × Nat)) (l : StoryLink) :
    List String × List (String × Nat) :=
  if vq.1.contains l.target then vq
  else (l.target :: vq.1, vq.2 ++ [(l.target, level + 1)])

/-- The BFS leveling loop of `GraphVisualizer.tsx`, with explicit fuel.
Each iteration dequeues one entry, records its level (later writes shadow
earlier ones, as assignment to `nodeLevels` does), and pushes the unvisited
targets of its outgoing links. `none` means the fuel ran out. -/
def bfsRun (links : List StoryLink) :
    Nat → List (String × Nat) → List String → List (String × Nat) →
      Option (List (String × Nat))
  | _, [], _, acc => some acc
  | 0, _ :: _, _, _ => none
  | fuel + 1, (id, level) :: rest, visited, acc =>
      let childLinks := links.filter (fun l => l.source == id)
      let vq := childLinks.foldl (bfsPush level) (visited, rest)
      bfsRun links fuel vq.2 vq.1 ((id, level) :: acc)

/-- Termination measure: queue length plus the number of distinct link
targets not yet visited. -/
def bfsPotential (links : List StoryLink) (queue : List (String × Nat))
    (visited : List String) : Nat :=
  queue.length + (((links.map (fun l => l.target)).toFinset) \ visited.toFinset).card

/-- The BFS of the source, run with fuel that the termination lemma shows is
always sufficient: at most one dequeue per start node plus one per distinct
link target. -/
def computeLevelsRaw (nodes : List StoryNode) (links : List StoryLink) :
    Option (List (String × Nat)) :=
  let starts := startNodesOf nodes links
  bfsRun links (nodes.length + links.length + 1)
    (starts.map (fun n => (n.id, 0))) (starts.map (fun n => n.id)) []

/-- The final defaulting pass: every node still without a level gets 0. -/
def applyLevelDefaults (nodes : List StoryNode) (lv : List (String × Nat)) :
    List (String × Nat) :=
  nodes.foldl (fun acc n => if (acc.lookup n.id).isSome then acc else (n.id, 0) :: acc) lv

/-- Full leveling computation of the `useEffect` in `GraphVisualizer.tsx`:
counts, start set, BFS, then the level-0 defaults. -/
def computeNodeLevels (nodes : List StoryNode) (links : List StoryLink) :
    Option (List (String × Nat)) :=
  (computeLevelsRaw nodes links).map (applyLevelDefaults nodes)

/-- Nodes of the C5 witness: a two-node cycle. -/
def wCycleNodes : List StoryNode :=
  [⟨"a", "A", ""⟩, ⟨"b", "B", ""⟩]

/-- Links of the C5 witness: `a → b → a`. -/
def wCycleLinks : List StoryLink :=
  [⟨"l1", "a", "b", "go"⟩, ⟨"l2", "b", "a", "back"⟩]

/-- The `d3Nodes` initialization mapping of `GraphVisualizer.tsx`: each node
takes its Position Cache entry when present; only uncached nodes get the
level-based `autoX` and the vertically jittered `autoY`. The i-th
`Math.random()` draw is the oracle value `rand i`; `pinned` is the Fixed
Mode flag. -/
def d3NodesInit (nodes : List StoryNode) (links : List StoryLink)
    (cache : List (String × CachedPos)) (height : ℚ) (rand : Nat → ℚ)
    (pinned : Bool) : List InitNode :=
  let nodeLevels := (computeNodeLevels nodes links).getD []
  nodes.enum.map (fun p =>
    let i := p.1
    let n := p.2
    let cached := cache.lookup n.id
    let autoX : ℚ := (((nodeLevels.lookup n.id).getD 0 : Nat) : ℚ) * 200 + 100
    let autoY : ℚ := height / 2 + (rand i - 1/2) * 100
    let currentX := match cached with
      | some c => c.x
      | none => autoX
    let currentY := match cached with
      | some c => c.y
      | none => autoY
    { id := n.id, title := n.title, content := n.content,
      level := (nodeLevels.lookup n.id).getD 0,
      isStart := incomingCount links n.id == 0,
      isEnd := outgoingCount links n.id == 0,
      x := currentX, y := currentY,
      fx := if pinned then some currentX else none,
      fy := if pinned then some currentY else none })

/-- Nodes of the C6 witness. -/
def wLayoutNodes : List StoryNode :=
  [⟨"a", "A", ""⟩, ⟨"b", "B", ""⟩]

/-- Cache of the C6 witness: only node `a` has a cached position. -/
def wLayoutCache : List (String × CachedPos) :=
  [("a", ⟨10, 20, none, none⟩)]

/-- Random oracle used by the C6 witness. -/
def wRandOracle : Nat → ℚ := fun _ => 3/4

/-- Layout result for the cached node `a` of the C6 witness. -/
def wLayoutInit0 : InitNode :=
  ((d3NodesInit wLayoutNodes [] wLayoutCache 600 wRandOracle false).get? 0).getD
    ⟨"", "", "", 0, false, false, 0, 0, none, none⟩

/-- Layout result for the uncached node `b` of the C6 witness. -/
def wLayoutInit1 : InitNode :=
  ((d3NodesInit wLayoutNodes [] wLayoutCache 600 wRandOracle false).get? 1).getD
    ⟨"", "", "", 0, false, false, 0, 0, none, none⟩

/-- A d3 zoom transform: translation and uniform scale. -/
structure ZoomTransform where
  k : ℚ
  tx : ℚ
  ty : ℚ
deriving DecidableEq

/-- The identity transform (`d3.zoomIdentity`). -/
def zoomIdentity : ZoomTransform := ⟨1, 0, 0⟩

/-- Scale clamping as d3 `constrain` performs it:
`Math.max(extent[0], Math.min(extent[1], k))`; `none` is the default
unbounded upper end. -/
def clampScale (lo : ℚ) (hi : Option ℚ) (k : ℚ) : ℚ :=
  max lo (match hi with
    | some h => min h k
    | none => k)

/-- d3's `zoom.scaleBy` on a behavior with scale extent `[lo, hi]`: the new
scale is the clamped product, and the translation keeps the viewport center
`(cx, cy)` over the same graph point. -/
def d3ScaleBy (lo : ℚ) (hi : Option ℚ) (t : ZoomTransform) (factor cx cy : ℚ) :
    ZoomTransform :=
  let k1 := clampScale lo hi (t.k * factor)
  let px := (cx - t.tx) / t.k
  let py := (cy - t.ty) / t.k
  ⟨k1, cx - px * k1, cy - py * k1⟩

/-- A wheel/pinch gesture through the behavior configured with
`scaleExtent([0.1, 4])` in the `useEffect`. -/
def gestureScaleBy (t : ZoomTransform) (factor cx cy : ℚ) : ZoomTransform :=
  d3ScaleBy (1/10) (some 4) t factor cx cy

/-- `handleZoomIn`: `d3.zoom().scaleBy(..., 1.2)` — note the fresh
`d3.zoom()` behavior, whose default scale extent is `[0, ∞)`. -/
def handleZoomIn (t : ZoomTransform) (cx cy : ℚ) : ZoomTransform :=
  d3ScaleBy 0 none t (6/5) cx cy

/-- `handleZoomOut`: `d3.zoom().scaleBy(..., 0.8)` on a fresh behavior. -/
def handleZoomOut (t : ZoomTransform) (cx cy : ℚ) : ZoomTransform :=
  d3ScaleBy 0 none t (4/5) cx cy

/-- `handleCenter`: `if(!svgRef.current || nodes.length === 0) return;` then
`d3.zoom().transform(..., d3.zoomIdentity)` — the early return leaves the
stored transform unchanged on an empty story (the SVG element itself is
always rendered while the component is mounted). -/
def handleCenter (nodes : List StoryNode) (t : ZoomTransform) : ZoomTransform :=
  if nodes.length = 0 then t else zoomIdentity

/-- State carried by the visualizer across simulation ticks and the
auto-center timer: the Position Cache, the current zoom transform, and how
often the auto-fit block has executed. -/
structure VizState where
  cache : List (String × CachedPos)
  transform : ZoomTransform
  autoFitRuns : Nat
deriving DecidableEq

/-- Asynchronous events relevant to the one-shot auto-fit: a simulation
tick (which writes every live node position into the Position Cache) and
the 500 ms auto-center timer firing (which bails out whenever the cache is
non-empty, else applies the 90 % fit transform for the measured bounds in
the `fullWidth × fullHeight` viewport). -/
inductive VizEvent where
  | tick (positions : List (String × CachedPos))
  | timerFire (bounds : Option (ℚ × ℚ × ℚ × ℚ)) (fullWidth fullHeight : ℚ)

/-- Apply one event to the visualizer state, following the `tick` handler
and the `setTimeout` callback of `GraphVisualizer.tsx`. -/
def applyVizEvent (s : VizState) : VizEvent → VizState
  | .tick positions =>
      { s with cache := positions.foldl (fun c ip => ip :: c) s.cache }
  | .timerFire bounds fullWidth fullHeight =>
      if s.cache.length > 0 then s
      else
        match bounds with
        | none => s
        | some (bx, bby, bw, bh) =>
            let scale := (9/10) / max (bw / fullWidth) (bh / fullHeight)
            let tx := fullWidth / 2 - scale * (bx + bw / 2)
            let ty := fullHeight / 2 - scale * (bby + bh / 2)
            { s with transform := ⟨scale, tx, ty⟩, autoFitRuns := s.autoFitRuns + 1 }

/-- Run a sequence of visualizer events. -/
def runVizEvents (s : VizState) (evs : List VizEvent) : VizState :=
  evs.foldl applyVizEvent s

/-- The first-load event order of the real scheduler: the simulation starts
ticking immediately (≈ 16 ms per frame), so ticks precede the 500 ms timer. -/
def wFirstLoadEvents : List VizEvent :=
  [VizEvent.tick [("1", ⟨100, 300, none, none⟩), ("2", ⟨300, 300, none, none⟩),
      ("3", ⟨500, 300, none, none⟩)],
   VizEvent.timerFire (some (76, 276, 448, 48)) 800 600]

/-- A rendered node circle inside the graph `<g>` element. The scene is
abstracted to its node circles (radius 24 for start/end nodes, 20
otherwise); links and labels only ever enlarge the same bounding box and
play no role in the claims below. -/
structure RenderedNode where
  id : String
  x : ℚ
  y : ℚ
  r : ℚ
deriving DecidableEq

/-- The node circles drawn by one render pass, at the simulation-provided
positions `pos`. -/
def renderScene (nodes : List StoryNode) (links : List StoryLink)
    (pos : String → ℚ × ℚ) : List RenderedNode :=
  nodes.map (fun n =>
    { id := n.id, x := (pos n.id).1, y := (pos n.id).2,
      r := if incomingCount links n.id == 0 || outgoingCount links n.id == 0
        then 24 else 20 })

/-- The render `useEffect` of `GraphVisualizer.tsx` as seen by the export
path: when the node list is empty it returns **before** clearing the SVG,
so whatever scene the previous render left stays in place; otherwise the
SVG is cleared and rebuilt. `none` models an SVG that has no `<g>` yet. -/
def renderEffect (svg : Option (List RenderedNode)) (nodes : List StoryNode)
    (links : List StoryLink) (pos : String → ℚ × ℚ) :
    Option (List RenderedNode) :=
  if nodes.isEmpty then svg else some (renderScene nodes links pos)

/-- Run a sequence of render passes against an initially empty SVG. -/
def renderSequence (svg : Option (List RenderedNode))
    (rs : List (List StoryNode × List StoryLink × (String → ℚ × ℚ))) :
    Option (List RenderedNode) :=
  rs.foldl (fun s r => renderEffect s r.1 r.2.1 r.2.2) svg

/-- `getBBox()` of the content group: the tight box around the circles
(SVG reports `0,0,0,0` for an empty group). -/
def sceneBBox (rns : List RenderedNode) : ℚ × ℚ × ℚ × ℚ :=
  match rns with
  | [] => (0, 0, 0, 0)
  | r0 :: rest =>
      let minx := rest.foldl (fun a rn => min a (rn.x - rn.r)) (r0.x - r0.r)
      let miny := rest.foldl (fun a rn => min a (rn.y - rn.r)) (r0.y - r0.r)
      let maxx := rest.foldl (fun a rn => max a (rn.x + rn.r)) (r0.x + r0.r)
      let maxy := rest.foldl (fun a rn => max a (rn.y + rn.r)) (r0.y + r0.r)
      (minx, miny, maxx - minx, maxy - miny)

/-- `svgToCanvas` of `exportUtils.ts`: fails when the SVG has no `<g>`
content group; pads the content box by 50 on each side; fails on a
non-positive padded size; otherwise yields a canvas of the padded size
times `scale` pixels. -/
def svgToCanvas (svg : Option (List RenderedNode)) (scale : ℚ) :
    Except String (ℚ × ℚ) :=
  match svg with
  | none => Except.error "Graph content not found (no <g> element)."
  | some rns =>
      let bbox := sceneBBox rns
      let width := bbox.2.2.1 + 50 * 2
      let height := bbox.2.2.2 + 50 * 2
      if width ≤ 0 ∨ height ≤ 0 then
        Except.error "Graph is empty or not rendered."
      else
        Except.ok (width * scale, height * scale)

/-- `downloadImage`: rasterize at the default 2× scale and emit a `.png`
artifact; a rejection surfaces as the alert (here the `error` branch) and
no artifact. -/
def downloadImage (svg : Option (List RenderedNode)) (filename : String) :
    Except String (String × ℚ × ℚ) :=
  match svgToCanvas svg 2 with
  | Except.error e => Except.error e
  | Except.ok c => Except.ok (filename ++ ".png", c)

/-- Page orientation of the generated document. -/
inductive DocOrient where
  | landscape
  | portrait
deriving DecidableEq

/-- jsPDF page setup for a `[w, h]` format: landscape keeps the larger
dimension as the width, portrait the smaller. -/
def jsPdfPage (o : DocOrient) (fw fh : ℚ) : ℚ × ℚ :=
  match o with
  | DocOrient.landscape => (max fw fh, min fw fh)
  | DocOrient.portrait => (min fw fh, max fw fh)

/-- The single page produced by `downloadPDF`: page size, the placed
image's rectangle, and the chosen orientation. -/
structure PdfDoc where
  pageW : ℚ
  pageH : ℚ
  imgX : ℚ
  imgY : ℚ
  imgW : ℚ
  imgH : ℚ
  orient : DocOrient
deriving DecidableEq

/-- `downloadPDF` of `exportUtils.ts`: rasterize at 2×, halve the canvas
pixel size back to content units, choose landscape iff width exceeds
height, and place the image at the origin with the halved size. -/
def downloadPDF (svg : Option (List RenderedNode)) (filename : String) :
    Except String (String × PdfDoc) :=
  match svgToCanvas svg 2 with
  | Except.error e => Except.error e
  | Except.ok c =>
      let width := c.1 / 2
      let height := c.2 / 2
      let o := if height < width then DocOrient.landscape else DocOrient.portrait
      let page := jsPdfPage o width height
      Except.ok (filename ++ ".pdf",
        { pageW := page.1, pageH := page.2, imgX := 0, imgY := 0,
          imgW := width, imgH := height, orient := o })

/-- The node used by the export exhibits. -/
def wExportNode : StoryNode := ⟨"1", "갈림길", "본문"⟩

/-- Simulation positions for the export exhibits. -/
def wExportPos : String → ℚ × ℚ := fun _ => (100, 300)

/-- The SVG after rendering the one-node story. -/
def wRenderedSvg : Option (List RenderedNode) :=
  renderEffect none [wExportNode] [] wExportPos

/-- The SVG after the story is emptied: the effect's early return leaves
the previous one-node scene in place. -/
def wStaleSvg : Option (List RenderedNode) :=
  renderEffect wRenderedSvg [] [] wExportPos

/-- The story of the C10 witness: one node and one dangling link. -/
def wDanglingStory : StoryData :=
  ⟨[⟨"1", "갈림길", "본문"⟩], [⟨"l1", "1", "ghost", "북쪽으로"⟩]⟩

theorem handleUpdateNode_ids (s : AppState) (u : StoryNode) :
    (handleUpdateNode s u).nodes.map (fun n => n.id) = s.nodes.map (fun n => n.id) := by
  simp only [handleUpdateNode, List.map_map]
  apply List.map_congr_left
  intro n _
  simp only [Function.comp_apply]
  by_cases h : n.id == u.id
  · have hid : n.id = u.id := by simpa using h
    simp [h, hid]
  · simp [h]

theorem applyOps_ids (s : AppState) (ops : List AppOp) :
    (applyOps s ops).nodes.map (fun n => n.id)
      = s.nodes.map (fun n => n.id) ++ createdIds ops := by
  induction ops generalizing s with
  | nil => simp [applyOps, createdIds]
  | cons op rest ih =>
      cases op with
      | create now t c =>
          have : applyOps s (.create now t c :: rest)
              = applyOps (handleCreateNode s now t c) rest := rfl
          rw [this, ih]
          simp [createdIds, handleCreateNode, List.filterMap_cons]
      | update u =>
          have : applyOps s (.update u :: rest) = applyOps (handleUpdateNode s u) rest := rfl
          rw [this, ih, handleUpdateNode_ids]
          simp [createdIds, List.filterMap_cons]

/-- C7: deleting a node removes exactly that node and exactly the links that
touch it, and clears the selection exactly when the deleted node was selected. -/
theorem deleteNode_exact (s : AppState) (nodeId : String) :
    (∀ n : StoryNode,
        n ∈ (handleDeleteNode s nodeId).nodes ↔ (n ∈ s.nodes ∧ n.id ≠ nodeId))
    ∧ (∀ l : StoryLink,
        l ∈ (handleDeleteNode s nodeId).links
          ↔ (l ∈ s.links ∧ l.source ≠ nodeId ∧ l.target ≠ nodeId))
    ∧ (handleDeleteNode s nodeId).selectedNodeId
        = (if s.selectedNodeId = some nodeId then none else s.selectedNodeId) := by
  refine ⟨?_, ?_, rfl⟩
  · intro n
    simp [handleDeleteNode, List.mem_filter]
  · intro l
    simp [handleDeleteNode, List.mem_filter]

/-- C9 (counterexample): two creations observing the same clock millisecond
mint the same id, so node ids are not unconditionally unique. -/
theorem nodeIds_duplicate_same_millisecond :
    ¬ ((applyOps ⟨[], [], none⟩
          [AppOp.create 5 "a" "", AppOp.create 5 "b" ""]).nodes.map
            (fun n => n.id)).Nodup := by
  decide

/-- C9 (amended): ids are the decimal renderings of the creation timestamps;
if those renderings are pairwise distinct and distinct from every pre-existing
id, then after any sequence of create/update operations all node ids are
distinct, and an update never changes any node's id. -/
theorem nodeIds_unique_of_fresh_times (s : AppState) (ops : List AppOp)
    (h : ((s.nodes.map (fun n => n.id)) ++ createdIds ops).Nodup) :
    ((applyOps s ops).nodes.map (fun n => n.id)).Nodup
    ∧ ∀ u : StoryNode,
        (handleUpdateNode s u).nodes.map (fun n => n.id) = s.nodes.map (fun n => n.id) := by
  refine ⟨?_, fun u => handleUpdateNode_ids s u⟩
  rw [applyOps_ids]
  exact h

/-- C9 witness: a concrete run with distinct timestamps. -/
theorem nodeIds_unique_of_fresh_times_witness :
    ((applyOps ⟨[], [], none⟩
        [AppOp.create 5 "a" "", AppOp.create 6 "b" ""]).nodes.map
          (fun n => n.id)).Nodup := by
  exact (nodeIds_unique_of_fresh_times ⟨[], [], none⟩
    [AppOp.create 5 "a" "", AppOp.create 6 "b" ""] (by decide)).1

theorem jsGet_some_truthy {data : JsonVal} {key : String} {v : JsonVal}
    (h : jsGet data key = some v) : jsTruthy data = true := by
  cases data <;> simp [jsGet, jsTruthy] at h ⊢

/-- C8: an import payload whose `nodes` or `links` field is not an array is
rejected with a user-visible error and leaves the story (nodes, links and
selection) untouched; a payload where both fields are arrays is accepted,
replacing the story and clearing the selection. -/
theorem import_shape_validation (s : ImportedStory) (data : JsonVal) :
    ((isArrayField data "nodes" = false ∨ isArrayField data "links" = false) →
        handleParsedImport s data = ⟨s, true⟩)
    ∧ (∀ ns ls : List JsonVal,
        jsGet data "nodes" = some (JsonVal.arr ns) →
        jsGet data "links" = some (JsonVal.arr ls) →
        handleParsedImport s data = ⟨⟨ns, ls, none⟩, false⟩) := by
  constructor
  · intro h
    rcases h with h | h <;>
      simp [handleParsedImport, h]
  · intro ns ls hns hls
    have ht := jsGet_some_truthy hns
    have hn : isArrayField data "nodes" = true := by simp [isArrayField, hns]
    have hl : isArrayField data "links" = true := by simp [isArrayField, hls]
    simp [handleParsedImport, ht, hn, hl, hns, hls, arrElems]

/-- C8 witness: the object-valued `nodes` payload is rejected leaving the
story intact, and the all-arrays payload is accepted. -/
theorem import_shape_validation_witness :
    handleParsedImport wImportStory wBadPayload = ⟨wImportStory, true⟩
    ∧ handleParsedImport wImportStory wGoodPayload = ⟨⟨[JsonVal.null], [], none⟩, false⟩ := by
  refine ⟨(import_shape_validation wImportStory wBadPayload).1 (Or.inl rfl),
    (import_shape_validation wImportStory wGoodPayload).2 [JsonVal.null] [] rfl rfl⟩

theorem foldl_strAppend {α : Type} (f : α → String) :
    ∀ (l : List α) (s : String),
      l.foldl (fun c a => c ++ f a) s = s ++ l.foldl (fun c a => c ++ f a) "" := by
  intro l
  induction l with
  | nil => intro s; simp [String.append_empty]
  | cons x xs ih =>
      intro s
      simp only [List.foldl_cons]
      rw [ih (s ++ f x), ih ("" ++ f x), String.empty_append, String.append_assoc]

theorem foldl_strAppend_mem {α : Type} (f : α → String) {l : List α} {x : α}
    (hx : x ∈ l) (s : String) :
    ∃ p q : String, l.foldl (fun c a => c ++ f a) s = p ++ f x ++ q := by
  obtain ⟨l1, l2, rfl⟩ := List.append_of_mem hx
  refine ⟨l1.foldl (fun c a => c ++ f a) s, l2.foldl (fun c a => c ++ f a) "", ?_⟩
  rw [List.foldl_append, List.foldl_cons, foldl_strAppend f l2]

/-- C10: for a story containing a dangling link (its target id matches no
node), building the text script still succeeds and the source node's block
prints the choice with the raw target id in place of a destination title. -/
theorem dangling_link_text_export (data : StoryData) (filename : String)
    (n : StoryNode) (l : StoryLink)
    (hn : n ∈ data.nodes) (hl : l ∈ data.links) (hsrc : l.source = n.id)
    (hdangling : ∀ m ∈ data.nodes, m.id ≠ l.target) :
    destTitle data l = l.target
    ∧ ∃ p q : String,
        textScript data filename
          = p ++ ("  - [" ++ l.label ++ "] -> 이동: \"" ++ l.target ++ "\"\n") ++ q := by
  have hfind : data.nodes.find? (fun m => m.id == l.target) = none := by
    apply List.find?_eq_none.mpr
    intro m hm
    simpa using hdangling m hm
  have hdest : destTitle data l = l.target := by
    simp [destTitle, hfind]
  refine ⟨hdest, ?_⟩
  have hline : choiceLine data l
      = "  - [" ++ l.label ++ "] -> 이동: \"" ++ l.target ++ "\"\n" := by
    simp [choiceLine, hdest]
  have hlmem : l ∈ data.links.filter (fun lk => lk.source == n.id) := by
    refine List.mem_filter.mpr ⟨hl, by simp [hsrc]⟩
  obtain ⟨p2, q2, hchoices⟩ :=
    foldl_strAppend_mem (choiceLine data) hlmem ("선택지:\n" : String)
  have hblock : choicesBlock data n.id
      = p2 ++ choiceLine data l ++ q2 := by
    have hpos : 0 < (data.links.filter (fun lk => lk.source == n.id)).length :=
      List.length_pos.mpr (List.ne_nil_of_mem hlmem)
    simp only [choicesBlock, choicesText]
    rw [if_pos hpos]
    exact hchoices
  obtain ⟨p1, q1, hscript⟩ :=
    foldl_strAppend_mem (nodeBlock data) hn
      ("스토리 스크립트: " ++ filename ++ "\n" ++ "====================================\n\n")
  refine ⟨p1 ++ ("장면: " ++ n.title ++ " [ID: " ++ n.id ++ "]\n"
      ++ "------------------------------------\n" ++ n.content ++ "\n\n" ++ p2),
    q2 ++ "\n====================================\n\n" ++ q1, ?_⟩
  rw [textScript, hscript, nodeBlock, hblock, hline]
  simp only [String.append_assoc]

theorem bfsPush_foldl_potential (T : Finset String) (level : Nat) :
    ∀ (cs : List StoryLink), (∀ l ∈ cs, l.target ∈ T) →
      ∀ (visited : List String) (queue : List (String × Nat)),
        (cs.foldl (bfsPush level) (visited, queue)).2.length
            + (T \ (cs.foldl (bfsPush level) (visited, queue)).1.toFinset).card
          ≤ queue.length + (T \ visited.toFinset).card := by
  intro cs
  induction cs with
  | nil => intro _ visited queue; simp
  | cons l cs ih =>
      intro hmem visited queue
      have hl : l.target ∈ T := hmem l (by simp)
      have hcs : ∀ x ∈ cs, x.target ∈ T := fun x hx => hmem x (by simp [hx])
      simp only [List.foldl_cons]
      by_cases h : (visited.contains l.target : Bool)
      · rw [bfsPush, if_pos h]
        exact ih hcs visited queue
      · rw [bfsPush, if_neg h]
        have hnv : l.target ∉ visited.toFinset := by
          simp only [List.mem_toFinset]
          simpa using h
        have hstep := ih hcs (l.target :: visited) (queue ++ [(l.target, level + 1)])
        have hcard : (T \ (l.target :: visited).toFinset).card
            = (T \ visited.toFinset).card - 1 := by
          rw [List.toFinset_cons, Finset.sdiff_insert]
          exact Finset.card_erase_of_mem (Finset.mem_sdiff.mpr ⟨hl, hnv⟩)
        have hpos : 0 < (T \ visited.toFinset).card :=
          Finset.card_pos.mpr ⟨l.target, Finset.mem_sdiff.mpr ⟨hl, hnv⟩⟩
        calc (cs.foldl (bfsPush level)
                (l.target :: visited, queue ++ [(l.target, level + 1)])).2.length
              + (T \ (cs.foldl (bfsPush level)
                  (l.target :: visited, queue ++ [(l.target, level + 1)])).1.toFinset).card
            ≤ (queue ++ [(l.target, level + 1)]).length
                + (T \ (l.target :: visited).toFinset).card := hstep
          _ = queue.length + 1 + ((T \ visited.toFinset).card - 1) := by
              rw [hcard]; simp
          _ ≤ queue.length + (T \ visited.toFinset).card := by omega

theorem bfsRun_isSome (links : List StoryLink) :
    ∀ (fuel : Nat) (queue : List (String × Nat)) (visited : List String)
      (acc : List (String × Nat)),
      bfsPotential links queue visited ≤ fuel →
      (bfsRun links fuel queue visited acc).isSome = true := by
  intro fuel
  induction fuel with
  | zero =>
      intro queue visited acc h
      cases queue with
      | nil => simp [bfsRun]
      | cons hd rest =>
          exfalso
          simp [bfsPotential] at h
  | succ fuel ih =>
      intro queue visited acc h
      cases queue with
      | nil => simp [bfsRun]
      | cons hd rest =>
          obtain ⟨id, level⟩ := hd
          rw [bfsRun]
          apply ih
          have hsub : ∀ l ∈ links.filter (fun l => l.source == id),
              l.target ∈ (links.map (fun l => l.target)).toFinset := by
            intro l hlf
            have hml : l ∈ links := List.mem_of_mem_filter hlf
            simp only [List.mem_toFinset, List.mem_map]
            exact ⟨l, hml, rfl⟩
          have hstep := bfsPush_foldl_potential
            ((links.map (fun l => l.target)).toFinset) level
            (links.filter (fun l => l.source == id)) hsub visited rest
          have hpot : bfsPotential links ((id, level) :: rest) visited ≤ fuel + 1 := h
          simp only [bfsPotential, List.length_cons] at hpot ⊢
          omega

theorem startNodesOf_length_le (nodes : List StoryNode) (links : List StoryLink) :
    (startNodesOf nodes links).length ≤ nodes.length := by
  rw [startNodesOf]
  split
  · rw [List.length_take]
    exact Nat.min_le_right 1 nodes.length
  · exact List.length_filter_le _ nodes

theorem computeLevelsRaw_isSome (nodes : List StoryNode) (links : List StoryLink) :
    (computeLevelsRaw nodes links).isSome = true := by
  apply bfsRun_isSome
  have h1 : ((startNodesOf nodes links).map (fun n => (n.id, 0))).length ≤ nodes.length := by
    rw [List.length_map]
    exact startNodesOf_length_le nodes links
  have h2 : (((links.map (fun l => l.target)).toFinset)
      \ ((startNodesOf nodes links).map (fun n => n.id)).toFinset).card
        ≤ links.length := by
    calc (((links.map (fun l => l.target)).toFinset)
          \ ((startNodesOf nodes links).map (fun n => n.id)).toFinset).card
        ≤ ((links.map (fun l => l.target)).toFinset).card :=
          Finset.card_le_card (Finset.sdiff_subset)
      _ ≤ (links.map (fun l => l.target)).length := List.toFinset_card_le _
      _ = links.length := List.length_map _ _
  simp only [bfsPotential]
  omega

theorem lookup_isSome_applyLevelDefaults_mono (nodes : List StoryNode) :
    ∀ (lv : List (String × Nat)) (id : String),
      (lv.lookup id).isSome = true →
      ((applyLevelDefaults nodes lv).lookup id).isSome = true := by
  induction nodes with
  | nil => intro lv id h; exact h
  | cons m rest ih =>
      intro lv id h
      have hstep : ((if (lv.lookup m.id).isSome then lv else (m.id, 0) :: lv).lookup id).isSome
          = true := by
        split
        · exact h
        · by_cases hid : (id == m.id : Bool)
          · simp [List.lookup, hid]
          · simp [List.lookup, hid, h]
      have : applyLevelDefaults (m :: rest) lv
          = applyLevelDefaults rest (if (lv.lookup m.id).isSome then lv else (m.id, 0) :: lv) := by
        simp [applyLevelDefaults, List.foldl_cons]
      rw [this]
      exact ih _ id hstep

theorem lookup_isSome_applyLevelDefaults (nodes : List StoryNode) :
    ∀ (lv : List (String × Nat)) (n : StoryNode), n ∈ nodes →
      ((applyLevelDefaults nodes lv).lookup n.id).isSome = true := by
  induction nodes with
  | nil => intro lv n h; cases h
  | cons m rest ih =>
      intro lv n h
      have hunf : applyLevelDefaults (m :: rest) lv
          = applyLevelDefaults rest (if (lv.lookup m.id).isSome then lv else (m.id, 0) :: lv) := by
        simp [applyLevelDefaults, List.foldl_cons]
      rcases List.mem_cons.mp h with rfl | hrest
      · rw [hunf]
        apply lookup_isSome_applyLevelDefaults_mono
        split
        · assumption
        · simp [List.lookup]
      · rw [hunf]
        exact ih _ n hrest

/-- C5: in a non-empty graph where no node has `incomingCount == 0`, the
first node in iteration order is the sole start node (queued at level 0),
the BFS leveling terminates, and every node of the graph ends up with an
assigned level. -/
theorem cyclic_leveling_total (nodes : List StoryNode) (links : List StoryLink)
    (hne : nodes ≠ [])
    (hcyc : ∀ n ∈ nodes, incomingCount links n.id ≠ 0) :
    startNodesOf nodes links = [nodes.head hne]
    ∧ (computeNodeLevels nodes links).isSome = true
    ∧ ∀ n ∈ nodes,
        (((computeNodeLevels nodes links).getD []).lookup n.id).isSome = true := by
  have hfilter : nodes.filter (fun n => incomingCount links n.id == 0) = [] := by
    rw [List.filter_eq_nil_iff]
    intro n hn
    simpa using hcyc n hn
  have hstart : startNodesOf nodes links = [nodes.head hne] := by
    rw [startNodesOf]
    have hlen : 0 < nodes.length := List.length_pos.mpr hne
    rw [hfilter]
    simp only [List.length_nil, hlen, and_true, if_true]
    cases nodes with
    | nil => exact absurd rfl hne
    | cons a rest => rfl
  obtain ⟨lv, hlv⟩ := Option.isSome_iff_exists.mp (computeLevelsRaw_isSome nodes links)
  have hmap : computeNodeLevels nodes links = some (applyLevelDefaults nodes lv) := by
    rw [computeNodeLevels, hlv]
    rfl
  have hsome : (computeNodeLevels nodes links).isSome = true := by
    rw [hmap]
    rfl
  refine ⟨hstart, hsome, ?_⟩
  intro n hn
  rw [hmap]
  exact lookup_isSome_applyLevelDefaults nodes lv n hn

/-- C5 witness: the fully cyclic two-node graph has the first node as its
sole start, the leveling terminates, and both nodes receive levels. -/
theorem cyclic_leveling_total_witness :
    startNodesOf wCycleNodes wCycleLinks = [⟨"a", "A", ""⟩]
    ∧ (computeNodeLevels wCycleNodes wCycleLinks).isSome = true
    ∧ (((computeNodeLevels wCycleNodes wCycleLinks).getD []).lookup "b").isSome = true := by
  have h := cyclic_leveling_total wCycleNodes wCycleLinks (by decide) (by decide)
  exact ⟨h.1, h.2.1, h.2.2 ⟨"b", "B", ""⟩ (by decide)⟩

/-- C6: re-running layout initialization takes every cached node's position
verbatim from the Position Cache; only nodes absent from the cache get the
fresh `level * 200 + 100` abscissa and a vertical-center ordinate jittered
by at most 50 units. -/
theorem warm_cache_layout_init (nodes : List StoryNode) (links : List StoryLink)
    (cache : List (String × CachedPos)) (height : ℚ) (rand : Nat → ℚ)
    (pinned : Bool) (hr : ∀ i : Nat, 0 ≤ rand i ∧ rand i < 1) :
    (d3NodesInit nodes links cache height rand pinned).length = nodes.length
    ∧ ∀ (i : Nat) (n : StoryNode) (m : InitNode),
        nodes.get? i = some n →
        (d3NodesInit nodes links cache height rand pinned).get? i = some m →
        m.id = n.id
        ∧ (∀ c : CachedPos, cache.lookup n.id = some c → m.x = c.x ∧ m.y = c.y)
        ∧ (cache.lookup n.id = none →
            m.x = (m.level : ℚ) * 200 + 100
            ∧ -50 ≤ m.y - height / 2 ∧ m.y - height / 2 ≤ 50) := by
  constructor
  · simp [d3NodesInit]
  · intro i n m hget hres
    have hres2 : (d3NodesInit nodes links cache height rand pinned).get? i
        = (nodes.get? i).map (fun a =>
            let nodeLevels := (computeNodeLevels nodes links).getD []
            let cached := cache.lookup a.id
            let autoX : ℚ := (((nodeLevels.lookup a.id).getD 0 : Nat) : ℚ) * 200 + 100
            let autoY : ℚ := height / 2 + (rand i - 1/2) * 100
            let currentX := match cached with
              | some c => c.x
              | none => autoX
            let currentY := match cached with
              | some c => c.y
              | none => autoY
            { id := a.id, title := a.title, content := a.content,
              level := (nodeLevels.lookup a.id).getD 0,
              isStart := incomingCount links a.id == 0,
              isEnd := outgoingCount links a.id == 0,
              x := currentX, y := currentY,
              fx := if pinned then some currentX else none,
              fy := if pinned then some currentY else none }) := by
      rw [d3NodesInit]
      rw [List.get?_map, List.get?_enum]
      rw [hget]
      rfl
    rw [hres2, hget] at hres
    simp only [Option.map_some'] at hres
    have hm := hres.symm
    injection hm with hm
    constructor
    · rw [hm]
    constructor
    · intro c hc
      rw [hm]
      simp [hc]
    · intro hc
      obtain ⟨h0, h1⟩ := hr i
      refine ⟨?_, ?_, ?_⟩
      · rw [hm]
        simp [hc]
      · rw [hm]
        simp only [hc]
        have : height / 2 + (rand i - 1/2) * 100 - height / 2 = (rand i - 1/2) * 100 := by
          ring
        rw [this]
        nlinarith
      · rw [hm]
        simp only [hc]
        have : height / 2 + (rand i - 1/2) * 100 - height / 2 = (rand i - 1/2) * 100 := by
          ring
        rw [this]
        nlinarith

/-- C6 witness: with a warm cache entry for `a`, layout reuses `(10, 20)`;
the uncached `b` gets `level * 200 + 100` and a jitter within 50 of the
vertical center. -/
theorem warm_cache_layout_init_witness :
    wLayoutInit0.x = 10 ∧ wLayoutInit0.y = 20
    ∧ wLayoutInit1.x = (wLayoutInit1.level : ℚ) * 200 + 100
    ∧ -50 ≤ wLayoutInit1.y - 600 / 2 ∧ wLayoutInit1.y - 600 / 2 ≤ 50 := by
  have h := warm_cache_layout_init wLayoutNodes [] wLayoutCache 600
    wRandOracle false
    (fun _ => by constructor <;> norm_num [wRandOracle])
  have h0 := h.2 0 ⟨"a", "A", ""⟩ wLayoutInit0 rfl rfl
  have h1 := h.2 1 ⟨"b", "B", ""⟩ wLayoutInit1 rfl rfl
  have hc0 := h0.2.1 ⟨10, 20, none, none⟩ rfl
  have hc1 := h1.2.2 rfl
  exact ⟨hc0.1, hc0.2, hc1.1, hc1.2.1, hc1.2.2⟩

/-- C3 (counterexample): eight toolbar zoom-in clicks from the identity put
the scale at `1.2^8 ≈ 4.3`, outside the claimed `[0.1, 4]` bound — the
buttons build a fresh unbounded zoom behavior, so the configured
`scaleExtent` never applies to them. -/
theorem zoom_buttons_escape_scale_bounds :
    ¬ ((List.range 8).foldl (fun t _ => handleZoomIn t 400 300) zoomIdentity).k ≤ 4 := by
  have hval : ((List.range 8).foldl (fun t _ => handleZoomIn t 400 300) zoomIdentity).k
      = 1679616 / 390625 := by
    simp only [List.range_succ, List.foldl_append, List.foldl_cons, List.foldl_nil,
      List.range_zero, handleZoomIn, d3ScaleBy, clampScale, zoomIdentity]
    norm_num
  rw [hval]
  norm_num

/-- C3 (amended): reset restores the identity transform on a non-empty
story and leaves the transform unchanged on an empty story (its early
return); gesture zooms keep the scale inside `[0.1, 4]`; the toolbar
buttons multiply the scale by exactly 1.2 / 0.8 with no upper clamp (only
the vacuous lower bound 0 of a default zoom behavior). -/
theorem viewport_scale_ops (nodes : List StoryNode) (t : ZoomTransform)
    (factor cx cy : ℚ) (hk : 0 ≤ t.k) :
    (handleZoomIn t cx cy).k = t.k * (6/5)
    ∧ (handleZoomOut t cx cy).k = t.k * (4/5)
    ∧ (nodes ≠ [] → handleCenter nodes t = zoomIdentity)
    ∧ handleCenter [] t = t
    ∧ 1/10 ≤ (gestureScaleBy t factor cx cy).k
    ∧ (gestureScaleBy t factor cx cy).k ≤ 4 := by
  refine ⟨?_, ?_, ?_, rfl, ?_, ?_⟩
  · simp only [handleZoomIn, d3ScaleBy, clampScale]
    have : (0 : ℚ) ≤ t.k * (6/5) := by positivity
    exact max_eq_right this
  · simp only [handleZoomOut, d3ScaleBy, clampScale]
    have : (0 : ℚ) ≤ t.k * (4/5) := by positivity
    exact max_eq_right this
  · intro hne
    rw [handleCenter, if_neg]
    simpa using hne
  · simp only [gestureScaleBy, d3ScaleBy, clampScale]
    exact le_max_left _ _
  · simp only [gestureScaleBy, d3ScaleBy, clampScale]
    have h1 : min 4 (t.k * factor) ≤ (4 : ℚ) := min_le_left _ _
    have h2 : (1/10 : ℚ) ≤ 4 := by norm_num
    exact max_le h2 h1

/-- C3 witness: the amended statement at the identity transform, with the
one-node story `[wExportNode]` discharging the non-empty reset case. -/
theorem viewport_scale_ops_witness :
    (handleZoomIn zoomIdentity 400 300).k = 1 * (6/5)
    ∧ (handleZoomOut zoomIdentity 400 300).k = 1 * (4/5)
    ∧ handleCenter [wExportNode] zoomIdentity = zoomIdentity
    ∧ handleCenter [] zoomIdentity = zoomIdentity
    ∧ 1/10 ≤ (gestureScaleBy zoomIdentity 10 400 300).k
    ∧ (gestureScaleBy zoomIdentity 10 400 300).k ≤ 4 := by
  have h := viewport_scale_ops [wExportNode] zoomIdentity 10 400 300
    (by norm_num [zoomIdentity])
  exact ⟨h.1, h.2.1, h.2.2.1 (by simp), h.2.2.2.1, h.2.2.2.2.1, h.2.2.2.2.2⟩

/-- C1 (code evaluated at the failing input): on first load, with an empty
Position Cache at effect time, the simulation tick that precedes the 500 ms
timer fills the cache, so the timer's `size > 0` guard skips the auto-fit —
it runs zero times, not once, and the transform never receives the 90 % fit. -/
theorem auto_fit_never_runs_on_first_load :
    (runVizEvents ⟨[], zoomIdentity, 0⟩ wFirstLoadEvents).autoFitRuns = 0
    ∧ (runVizEvents ⟨[], zoomIdentity, 0⟩ wFirstLoadEvents).transform = zoomIdentity := by
  constructor <;> rfl

theorem wStaleSvg_eq : wStaleSvg = wRenderedSvg := rfl

theorem svgToCanvas_wRendered : svgToCanvas wRenderedSvg 2 = Except.ok (296, 296) := by
  show svgToCanvas (some (renderScene [wExportNode] [] wExportPos)) 2 = _
  simp only [renderScene, List.map_cons, List.map_nil, wExportPos, wExportNode,
    incomingCount, outgoingCount, List.foldl_nil, sceneBBox, svgToCanvas]
  norm_num

/-- C2 (counterexample): after a non-empty render followed by deleting
every node, the story has zero nodes but the stale scene is still in the
SVG, so both the image and the document export succeed and produce an
artifact — they do not fail as claimed. -/
theorem empty_story_export_succeeds_on_stale_svg :
    (downloadImage wStaleSvg "story-visual-map").isOk = true
    ∧ (downloadPDF wStaleSvg "story-visual-map").isOk = true := by
  rw [wStaleSvg_eq]
  constructor
  · rw [downloadImage, svgToCanvas_wRendered]
    rfl
  · rw [downloadPDF, svgToCanvas_wRendered]
    rfl

/-- C2 (amended): when the canvas holds no previously rendered content —
every render so far saw an empty node list, e.g. a story empty since load —
the image and document exports fail with the descriptive missing-content
error and produce no artifact. -/
theorem empty_story_export_fails_without_stale_content
    (rs : List (List StoryNode × List StoryLink × (String → ℚ × ℚ)))
    (h : ∀ r ∈ rs, r.1 = []) (filename : String) :
    renderSequence none rs = none
    ∧ downloadImage (renderSequence none rs) filename
        = Except.error "Graph content not found (no <g> element)."
    ∧ downloadPDF (renderSequence none rs) filename
        = Except.error "Graph content not found (no <g> element)." := by
  have hnone : renderSequence none rs = none := by
    induction rs with
    | nil => rfl
    | cons r rest ih =>
        have hr : r.1 = [] := h r (by simp)
        have hrest : ∀ x ∈ rest, x.1 = [] := fun x hx => h x (by simp [hx])
        have hstep : renderSequence none (r :: rest) = renderSequence none rest := by
          simp [renderSequence, renderEffect, hr]
        rw [hstep]
        exact ih hrest
  refine ⟨hnone, ?_, ?_⟩ <;> rw [hnone] <;> rfl

/-- C2 witness: a single empty-story render pass, then both exports fail. -/
theorem empty_story_export_fails_witness :
    renderSequence none [([], [], wExportPos)] = none
    ∧ downloadImage (renderSequence none [([], [], wExportPos)]) "story-visual-map"
        = Except.error "Graph content not found (no <g> element)."
    ∧ downloadPDF (renderSequence none [([], [], wExportPos)]) "story-visual-map"
        = Except.error "Graph content not found (no <g> element)." := by
  exact empty_story_export_fails_without_stale_content
    [([], [], wExportPos)] (by intro r hr; simp at hr; rw [hr]) "story-visual-map"

/-- C4 (counterexample): for the one-node scene the raster canvas is
296 × 296 pixels while the PDF page is 148 × 148 — the page equals the
canvas divided by the 2× export scale, not the raster's pixel size. -/
theorem pdf_page_differs_from_raster_size :
    svgToCanvas wRenderedSvg 2 = Except.ok (296, 296)
    ∧ downloadPDF wRenderedSvg "story-visual-map"
        = Except.ok ("story-visual-map.pdf",
            ⟨148, 148, 0, 0, 148, 148, DocOrient.portrait⟩)
    ∧ (148 : ℚ) ≠ 296 := by
  refine ⟨svgToCanvas_wRendered, ?_, by norm_num⟩
  rw [downloadPDF, svgToCanvas_wRendered]
  norm_num [jsPdfPage]
  rfl

/-- C4 (amended): whenever rasterization succeeds with a `cw × ch` pixel
canvas, the PDF page is `cw/2 × ch/2` (the canvas divided by the 2× export
scale), the image fills the page from the origin, and the orientation is
landscape exactly when the width exceeds the height. -/
theorem pdf_page_layout (svg : Option (List RenderedNode)) (filename : String)
    (cw ch : ℚ) (h : svgToCanvas svg 2 = Except.ok (cw, ch)) :
    downloadPDF svg filename
      = Except.ok (filename ++ ".pdf",
          ⟨cw / 2, ch / 2, 0, 0, cw / 2, ch / 2,
            if ch / 2 < cw / 2 then DocOrient.landscape else DocOrient.portrait⟩)
    ∧ ((if ch / 2 < cw / 2 then DocOrient.landscape else DocOrient.portrait)
          = DocOrient.landscape ↔ ch < cw) := by
  constructor
  · rw [downloadPDF, h]
    by_cases hlt : ch / 2 < cw / 2
    · simp only [hlt, if_true, jsPdfPage]
      have h1 : max (cw / 2) (ch / 2) = cw / 2 := max_eq_left (le_of_lt hlt)
      have h2 : min (cw / 2) (ch / 2) = ch / 2 := min_eq_right (le_of_lt hlt)
      rw [h1, h2]
    · simp only [hlt, if_false, jsPdfPage]
      have hle : cw / 2 ≤ ch / 2 := le_of_not_lt hlt
      have h1 : min (cw / 2) (ch / 2) = cw / 2 := min_eq_left hle
      have h2 : max (cw / 2) (ch / 2) = ch / 2 := max_eq_right hle
      rw [h1, h2]
  · by_cases hlt : ch / 2 < cw / 2
    · simp only [hlt, if_true]
      constructor
      · intro _; linarith
      · intro _; trivial
    · simp only [hlt, if_false]
      constructor
      · intro hcontr; cases hcontr
      · intro hcw; exact absurd (by linarith : ch / 2 < cw / 2) hlt

/-- C4 witness: the amended page layout at the concrete one-node scene. -/
theorem pdf_page_layout_witness :
    downloadPDF wRenderedSvg "story-visual-map"
      = Except.ok ("story-visual-map.pdf",
          ⟨296 / 2, 296 / 2, 0, 0, 296 / 2, 296 / 2,
            if (296 : ℚ) / 2 < 296 / 2 then DocOrient.landscape
            else DocOrient.portrait⟩)
    ∧ ((if (296 : ℚ) / 2 < 296 / 2 then DocOrient.landscape
          else DocOrient.portrait) = DocOrient.landscape ↔ (296 : ℚ) < 296) := by
  exact pdf_page_layout wRenderedSvg "story-visual-map" 296 296 svgToCanvas_wRendered

/-- C10 witness: the dangling choice line of the concrete story prints the
raw target id. -/
theorem dangling_link_text_export_witness :
    destTitle wDanglingStory ⟨"l1", "1", "ghost", "북쪽으로"⟩ = "ghost"
    ∧ ∃ p q : String,
        textScript wDanglingStory "story-script"
          = p ++ ("  - [" ++ "북쪽으로" ++ "] -> 이동: \"" ++ "ghost" ++ "\"\n") ++ q := by
  exact dangling_link_text_export wDanglingStory "story-script"
    ⟨"1", "갈림길", "본문"⟩ ⟨"l1", "1", "ghost", "북쪽으로"⟩
    (by decide) (by decide) rfl (by decide)
